import Mathlib

/-!
# Verification of the linda-salon-api availability & booking scheduling engine

A shallow embedding of the Go source of the salon booking backend
(`linda-salon-api`), covering the parts of the code the frozen claims are
about:

* `StylistRepository.IsAvailable` (repository, stylist repo file)
* `BookingRepository.GetByStylistAndDateString`, `UpdateStatus`, `List`
  (repository, booking repo file)
* `BookingHandler.CreateBooking`, `UpdateBookingStatus`, `CancelBooking`,
  `GetBooking`, `ListBookings` (handler, booking handler file)
* `StylistHandler.GetAvailableSlots` (handler, stylist handler file)
* `model.Booking`, `model.StylistSchedule`, `model.Service`,
  `model.BookingServiceItem` (model files)

Machine integers are modelled as `Nat` (ids, minutes, prices: all values in
play are small and non-negative; no overflow is reachable in the claims'
scenarios).  Go strings in `HH:MM` positions are ASCII, so Go's byte-wise
string comparison coincides with comparison of `Char.toNat` codes, which is
how `goStrLt` is defined.  Database state is a `List Booking`; each GORM
call is one pure function on that list (the Go code issues every call as a
separate autocommit statement, with no surrounding transaction or lock —
that fact is itself the subject of one claim and is modelled by letting
separate calls observe and extend the list independently).
-/

namespace LindaSalon

/-! ## Go string comparison (byte-wise lexicographic, ASCII) -/

/-- Byte-wise lexicographic `<` on character lists, as Go compares strings.
For the ASCII strings compared here, `Char.toNat` is the byte value. -/
def strLtChars : List Char → List Char → Bool
  | [], [] => false
  | [], _ :: _ => true
  | _ :: _, [] => false
  | a :: as, b :: bs =>
    if a.toNat < b.toNat then true
    else if b.toNat < a.toNat then false
    else strLtChars as bs

/-- Go `a < b` on strings. -/
def goStrLt (a b : String) : Bool := strLtChars a.data b.data

/-- Go `a <= b` on strings. -/
def goStrLe (a b : String) : Bool := !(goStrLt b a)

/-! ## Go `strconv.Atoi` and string slicing

`strconv.Atoi` returns `(0, err)` on a malformed string; every call site in
the booking handler discards the error (`startHour, _ := strconv.Atoi …`),
so a malformed slice contributes the value 0. -/

/-- ASCII decimal digit test (`'0'` through `'9'`), the character class Go's
`strconv.Atoi` and the numeric fields of `time.Parse` accept. -/
def isDigitChar (c : Char) : Bool := 48 ≤ c.toNat && c.toNat ≤ 57

/-- Numeric value of a list of decimal digit characters. -/
def digitsVal : List Char → Nat
  | [] => 0
  | c :: cs => digitsVal cs + c.toNat % 48 * 10 ^ cs.length

/-- Go `strconv.Atoi` with the error discarded: the value for a non-empty
all-digit string, 0 otherwise (the call sites only ever see two-character
slices, so overflow is unreachable). -/
def goAtoi (s : String) : Nat :=
  if s.data ≠ [] ∧ s.data.all isDigitChar then digitsVal s.data else 0

/-- Go slicing `s[a:b]` on an ASCII string (caller has checked `b ≤ len`). -/
def strSlice (s : String) (a b : Nat) : String :=
  String.mk ((s.data.drop a).take (b - a))

/-! ## Go `time` fragments used by the engine

`time.Parse("15:04", s)` yields a time on January 1 of year 0; we measure
times in minutes from that epoch, so a successful parse of `HH:MM` is
`60*H + M`.  A failed parse (error discarded at every call site in
`GetAvailableSlots`) leaves the zero `time.Time`, which is January 1 of
year 1 — `366 * 1440` minutes after the epoch (year 0 is a leap year in
Go's proleptic Gregorian calendar). -/

/-- Minutes-from-parse-epoch of Go's zero `time.Time`. -/
def goZeroTimeMin : Nat := 366 * 1440

/-- Parse of layout `"15:04"`: one- or two-digit hour `< 24`, `':'`,
exactly two digit minutes `< 60`; anything else is a parse error. -/
def parseHHMM (s : String) : Option Nat :=
  match s.data with
  | [h1, h2, c, m1, m2] =>
    if isDigitChar h1 ∧ isDigitChar h2 ∧ c = ':' ∧ isDigitChar m1 ∧ isDigitChar m2 then
      let h := (h1.toNat % 48) * 10 + h2.toNat % 48
      let m := (m1.toNat % 48) * 10 + m2.toNat % 48
      if h < 24 ∧ m < 60 then some (h * 60 + m) else none
    else none
  | [h1, c, m1, m2] =>
    if isDigitChar h1 ∧ c = ':' ∧ isDigitChar m1 ∧ isDigitChar m2 then
      let m := (m1.toNat % 48) * 10 + m2.toNat % 48
      if h1.toNat % 48 < 24 ∧ m < 60 then some ((h1.toNat % 48) * 60 + m) else none
    else none
  | _ => none

/-- `time.Parse("15:04", s)` with the error discarded, in minutes from the
parse epoch: the parsed value, or the zero `time.Time` on error. -/
def goParseTimeMin (s : String) : Nat := (parseHHMM s).getD goZeroTimeMin

/-- The ASCII digit character for `n % 10`. -/
def digitChar (n : Nat) : Char :=
  ['0', '1', '2', '3', '4', '5', '6', '7', '8', '9'].getD (n % 10) '0'

/-- Two-digit zero-padded decimal rendering of `n < 100`, as the `"15"` and
`"04"` elements of a Go time layout render hour and minute. -/
def pad2 (n : Nat) : String := String.mk [digitChar (n / 10), digitChar n]

/-- `time.Date(0, 0, 0, h, m, 0, 0, UTC).Format("15:04")` for a total of
`t` minutes: `time.Date` normalises overflowing hours into days and
`Format "15:04"` shows only the wall clock, i.e. `t` reduced mod one day. -/
def format1504 (t : Nat) : String :=
  pad2 (t / 60 % 24) ++ ":" ++ pad2 (t % 60)

/-- Well-formed five-character wall-clock string `HH:MM` (zero-padded hour
below 24, minute below 60) — the wire format the spec prescribes. -/
def isHHMM (s : String) : Bool :=
  match s.data with
  | [a, b, c, d, e] =>
    isDigitChar a && isDigitChar b && c = ':' && isDigitChar d && isDigitChar e &&
      decide ((a.toNat % 48) * 10 + b.toNat % 48 < 24) &&
      decide ((d.toNat % 48) * 10 + e.toNat % 48 < 60)
  | _ => false

/-- Minutes-since-midnight of a well-formed `HH:MM` string (0 otherwise). -/
def hhmmVal (s : String) : Nat :=
  match s.data with
  | [a, b, _, d, e] => ((a.toNat % 48) * 10 + b.toNat % 48) * 60 + (d.toNat % 48) * 10 + e.toNat % 48
  | _ => 0

/-! ## Data model (`internal/model`)

`model.Booking` declares `StartTime`/`EndTime`/`Services`; the slot handler
`GetAvailableSlots` additionally reads `booking.BookingTime` and
`booking.Service.Duration`, fields that no revision of `model.Booking`
under the sources declares and that no write path of the repository sets.
The embedding carries them as `bookingTime`/`serviceDuration` so the
handler's code can be expressed; every booking produced by the embedded
`CreateBooking` leaves them at Go's zero values (`""` / `0`), which is what
any resolution of that inconsistency hands the running handler. -/

/-- `model.BookingServiceItem`: price/duration snapshot stored in JSONB. -/
structure ServiceItem where
  id : Nat
  name : String
  price : Nat
  duration : Nat
deriving DecidableEq

/-- `model.Service`: one catalog row. -/
structure Service where
  id : Nat
  name : String
  price : Nat
  duration : Nat
  isActive : Bool
deriving DecidableEq

/-- `model.Stylist` (the fields the booking path reads). -/
structure Stylist where
  id : Nat
  isActive : Bool
deriving DecidableEq

/-- `model.StylistSchedule`: one weekly availability window. -/
structure StylistSchedule where
  id : Nat
  stylistId : Nat
  dayOfWeek : Nat
  startTime : String
  endTime : String
  isActive : Bool
deriving DecidableEq

/-- `model.User` (the fields the booking path reads). -/
structure User where
  id : Nat
  name : String
  phone : Option String
  email : String
deriving DecidableEq

/-- `model.Booking`.  `bookingDate` is the `YYYY-MM-DD` rendering of the
`time.Time` column, which is how every query in the booking path compares
it.  See the section comment for `bookingTime`/`serviceDuration`. -/
structure Booking where
  id : Nat
  userId : Nat
  stylistId : Nat
  services : List ServiceItem
  bookingDate : String
  startTime : String
  endTime : String
  duration : Nat
  price : Nat
  status : String
  notes : String
  customerName : String
  customerPhone : String
  customerEmail : String
  bookingTime : String
  serviceDuration : Nat
deriving DecidableEq

/-- `model.Booking.IsCancellable`. -/
def isCancellable (b : Booking) : Bool :=
  b.status == "pending" || b.status == "confirmed"

/-! ## Repositories

The database is a `List Booking` (plus read-only catalog/stylist/schedule
lists); each GORM call is a pure function of it.  `First` picks the first
matching row in list order. -/

/-- `ServiceRepository.GetByID` (`nil, nil` on not found → `none`). -/
def serviceGetByID (catalog : List Service) (i : Nat) : Option Service :=
  catalog.find? (fun s => s.id == i)

/-- `StylistRepository.GetByID`. -/
def stylistGetByID (stylists : List Stylist) (i : Nat) : Option Stylist :=
  stylists.find? (fun s => s.id == i)

/-- The `First` query of `StylistRepository.IsAvailable` and the day-window
scan of `GetAvailableSlots`: first active schedule row of the stylist for
the weekday. -/
def schedFindForDay (scheds : List StylistSchedule) (sid day : Nat) :
    Option StylistSchedule :=
  scheds.find? (fun sc => sc.stylistId == sid && sc.dayOfWeek == day && sc.isActive)

/-- One row of the conflict count in `StylistRepository.IsAvailable`:
`stylist_id = ? AND booking_date = ? AND status IN ('pending','confirmed')
AND NOT (end_time <= startTime OR start_time >= endTime)` (SQL string
comparison, byte-wise for ASCII). -/
def isConflictRow (sid : Nat) (dateStr startT endT : String) (b : Booking) : Bool :=
  b.stylistId == sid && b.bookingDate == dateStr &&
  (b.status == "pending" || b.status == "confirmed") &&
  !(goStrLe b.endTime startT || goStrLe endT b.startTime)

/-- `StylistRepository.IsAvailable stylistID date startTime endTime`.
`dayOfWeek` is `int(date.Weekday())`, passed in already derived; `dateStr`
is `date.Format("2006-01-02")`. -/
def isAvailable (scheds : List StylistSchedule) (store : List Booking)
    (sid : Nat) (dateStr : String) (dayOfWeek : Nat) (startT endT : String) : Bool :=
  match schedFindForDay scheds sid dayOfWeek with
  | none => false
  | some sc =>
    if goStrLt startT sc.startTime || goStrLt sc.endTime endT then false
    else (store.countP (fun b => isConflictRow sid dateStr startT endT b)) == 0

/-- `BookingRepository.GetByStylistAndDateString`: rows of the stylist and
date with `status IN ('pending','confirmed')`.  The SQL also orders by
`start_time`; the slot loop below only tests existence of a conflicting
row, so row order is kept as store order. -/
def getByStylistAndDateString (store : List Booking) (sid : Nat) (dateStr : String) :
    List Booking :=
  store.filter (fun b =>
    b.stylistId == sid && b.bookingDate == dateStr &&
    (b.status == "pending" || b.status == "confirmed"))

/-- `BookingRepository.UpdateStatus`: unconditional
`UPDATE bookings SET status = ? WHERE id = ?`; matching zero rows is not an
error. -/
def updateStatusRepo (store : List Booking) (i : Nat) (status : String) : List Booking :=
  store.map (fun b => if b.id == i then { b with status := status } else b)

/-- `BookingRepository.GetByID` (`nil, nil` on not found → `none`). -/
def getByIdRepo (store : List Booking) (i : Nat) : Option Booking :=
  store.find? (fun b => b.id == i)

/-- The `WHERE` clause of `BookingRepository.List`: optional user filter,
optional status, optional inclusive date bounds (ISO dates compare
lexicographically like the SQL `time.Time` comparison). -/
def listRepoFilter (userID : Option Nat) (status : String)
    (startDate endDate : Option String) (b : Booking) : Bool :=
  (match userID with | some u => b.userId == u | none => true) &&
  (status == "" || b.status == status) &&
  (match startDate with | some sd => goStrLe sd b.bookingDate | none => true) &&
  (match endDate with | some ed => goStrLe b.bookingDate ed | none => true)

/-- `BookingRepository.List` rows.  The SQL sorts by
`booking_date DESC, start_time DESC` before `LIMIT/OFFSET`; the embedding
keeps store order — the property proved about it below (a non-admin only
ever receives their own rows) is invariant under row permutation. -/
def listRepo (store : List Booking) (userID : Option Nat) (status : String)
    (startDate endDate : Option String) (limit offset : Nat) : List Booking :=
  ((store.filter (listRepoFilter userID status startDate endDate)).drop offset).take limit

/-! ## Slot calculator (`StylistHandler.GetAvailableSlots`) -/

/-- One entry of the handler's slot array.  The handler renders the start
as `currentTime.Format("15:04")`; the embedding keeps it in minutes from
the parse epoch (rendering is a bijection on the values the loop visits). -/
structure TimeSlot where
  time : Nat
  available : Bool
deriving DecidableEq

/-- The per-booking conflict test of the slot loop: skip `cancelled` rows,
otherwise parse `booking.BookingTime` (error discarded), let the booking
end `Service.Duration` minutes later, and flag overlap when
`currentTime.Before(bookingEnd) && slotEnd.After(bookingTime)`. -/
def slotBlocks (cur slotEnd : Nat) (b : Booking) : Bool :=
  !(b.status == "cancelled") &&
  (cur < goParseTimeMin b.bookingTime + b.serviceDuration &&
   goParseTimeMin b.bookingTime < slotEnd)

/-- The slot generation loop: from `cur`, step 30 minutes while
`currentTime.Before(endTime)`, breaking when `slotEnd.After(endTime)`.
Structural recursion on a fuel that starts at `e - cur`: the Go loop's
counter strictly increases by 30 per iteration, so `e - cur` iterations
always suffice, and whenever the fuel is exhausted the loop guard
`cur < e` is false anyway (see `slotLoopAux_fuel_irrelevant`). -/
def slotLoopAux (bs : List Booking) (e d : Nat) : Nat → Nat → List TimeSlot
  | fuel + 1, cur =>
    if cur < e then
      if e < cur + d then []
      else
        { time := cur, available := !(bs.any (slotBlocks cur (cur + d))) } ::
          slotLoopAux bs e d fuel (cur + 30)
    else []
  | 0, _ => []

/-- The slot generation loop of `GetAvailableSlots`. -/
def slotLoop (cur e d : Nat) (bs : List Booking) : List TimeSlot :=
  slotLoopAux bs e d (e - cur) cur

/-- `StylistHandler.GetAvailableSlots` after request decoding: `none` is the
400 for a non-positive duration; a missing day schedule answers 200 with an
empty array.  `dayOfWeek` is `int(date.Weekday())`, passed in derived. -/
def getAvailableSlots (scheds : List StylistSchedule) (store : List Booking)
    (sid : Nat) (dateStr : String) (dayOfWeek : Nat) (duration : Int) :
    Option (List TimeSlot) :=
  if duration ≤ 0 then none
  else
    match schedFindForDay scheds sid dayOfWeek with
    | none => some []
    | some sc =>
      let bs := getByStylistAndDateString store sid dateStr
      some (slotLoop (goParseTimeMin sc.startTime) (goParseTimeMin sc.endTime)
        duration.toNat bs)

/-! ## Booking creation (`BookingHandler.CreateBooking`) -/

/-- The decoded `CreateBookingRequest`. -/
structure CreateReq where
  serviceIDs : List Nat
  stylistId : Nat
  date : String
  startTime : String
  notes : String
  customerName : String
  customerPhone : String
  customerEmail : String
deriving DecidableEq

/-- Validity of `time.Parse("2006-01-02", s)`: `YYYY-MM-DD` with a real
month and day (Go checks the day against the month's length). -/
def isValidDateStr (s : String) : Bool :=
  match s.data with
  | [y1, y2, y3, y4, c1, m1, m2, c2, d1, d2] =>
    isDigitChar y1 && isDigitChar y2 && isDigitChar y3 && isDigitChar y4 &&
    c1 = '-' && isDigitChar m1 && isDigitChar m2 && c2 = '-' &&
    isDigitChar d1 && isDigitChar d2 &&
    (let y := ((y1.toNat % 48 * 10 + y2.toNat % 48) * 10 + y3.toNat % 48) * 10 + y4.toNat % 48
     let m := m1.toNat % 48 * 10 + m2.toNat % 48
     let d := d1.toNat % 48 * 10 + d2.toNat % 48
     let leap := y % 4 == 0 && (y % 100 != 0 || y % 400 == 0)
     let len : Nat :=
       if m == 2 then (if leap then 29 else 28)
       else if m == 4 || m == 6 || m == 9 || m == 11 then 30 else 31
     1 ≤ m && m ≤ 12 && 1 ≤ d && d ≤ len)
  | _ => false

/-- Failures of the steps of `CreateBooking` that precede the availability
check.  `panicked` is the Go runtime panic of `req.StartTime[:2]` /
`req.StartTime[3:5]` when the string is shorter than five bytes (no
recovery inside the handler). -/
inductive CreateErr where
  | invalidService (i : Nat)
  | invalidStylist
  | invalidDate
  | panicked
deriving DecidableEq

/-- The service-resolution loop of `CreateBooking`: each id through
`serviceRepo.GetByID`, failing with the first unknown id, snapshotting
`{ID, Name, Price, Duration}` in request order. -/
def resolveServices (catalog : List Service) : List Nat → Except Nat (List ServiceItem)
  | [] => .ok []
  | i :: rest =>
    match serviceGetByID catalog i with
    | none => .error i
    | some s =>
      match resolveServices catalog rest with
      | .error j => .error j
      | .ok items => .ok (⟨s.id, s.name, s.price, s.duration⟩ :: items)

/-- The store-independent prefix of `CreateBooking`: resolve services and
totals, look up the stylist, parse the date, slice the start time and
derive the end time, and assemble the row to insert (status `pending`,
customer fields falling back to the user profile).  The Go code builds the
row literal after the availability check; every field is a pure function
of request and user, so the row is assembled here and the check reads the
row's own fields.  Fields `CreateBooking` never mentions (`bookingTime`,
`serviceDuration`) stay at Go zero values. -/
def prepareBooking (catalog : List Service) (stylists : List Stylist)
    (user : User) (newId : Nat) (req : CreateReq) : Except CreateErr Booking :=
  match resolveServices catalog req.serviceIDs with
  | .error i => .error (.invalidService i)
  | .ok items =>
    let totalDuration := (items.map (·.duration)).sum
    let totalPrice := (items.map (·.price)).sum
    match stylistGetByID stylists req.stylistId with
    | none => .error .invalidStylist
    | some _ =>
      if isValidDateStr req.date then
        if req.startTime.length < 5 then .error .panicked
        else
          let startHour := goAtoi (strSlice req.startTime 0 2)
          let startMin := goAtoi (strSlice req.startTime 3 5)
          let endTime := format1504 (startHour * 60 + startMin + totalDuration)
          .ok { id := newId, userId := user.id, stylistId := req.stylistId,
                services := items, bookingDate := req.date,
                startTime := req.startTime, endTime := endTime,
                duration := totalDuration, price := totalPrice,
                status := "pending", notes := req.notes,
                customerName := if req.customerName == "" then user.name else req.customerName,
                customerPhone := if req.customerPhone == "" then user.phone.getD "" else req.customerPhone,
                customerEmail := if req.customerEmail == "" then user.email else req.customerEmail,
                bookingTime := "", serviceDuration := 0 }
      else .error .invalidDate

/-- The `stylistRepo.IsAvailable` call of `CreateBooking`, on the prepared
row's stylist, date and derived interval. -/
def availabilityCheck (scheds : List StylistSchedule) (store : List Booking)
    (dayOfWeek : Nat) (b : Booking) : Bool :=
  isAvailable scheds store b.stylistId b.bookingDate dayOfWeek b.startTime b.endTime

/-- Outcome of `CreateBooking`: an error response before any write, the 409
`Stylist is not available at this time` (the spec's `SlotUnavailable`), or
201 with the inserted row. -/
inductive CreateOutcome where
  | errored (e : CreateErr)
  | slotUnavailable
  | created (b : Booking)
deriving DecidableEq

/-- `BookingHandler.CreateBooking`: prepare, check availability against the
current store, and on success insert (`bookingRepo.Create` appends the
row).  The check and the insert are two separate store accesses with
nothing joining them — exactly as in the Go code, where they are two
autocommit database calls with no transaction, lock or unique constraint. -/
def createBooking (catalog : List Service) (stylists : List Stylist)
    (scheds : List StylistSchedule) (user : User) (store : List Booking)
    (newId : Nat) (req : CreateReq) (dayOfWeek : Nat) :
    CreateOutcome × List Booking :=
  match prepareBooking catalog stylists user newId req with
  | .error e => (.errored e, store)
  | .ok b =>
    if availabilityCheck scheds store dayOfWeek b then (.created b, store ++ [b])
    else (.slotUnavailable, store)

/-- Two concurrent `CreateBooking` requests at statement granularity, in
the interleaving where both availability SELECTs run before either INSERT
(nothing in the Go code excludes it: each repository call is its own
autocommit statement). -/
def raceInterleaved (scheds : List StylistSchedule) (store : List Booking)
    (dayOfWeek : Nat) (b1 b2 : Booking) :
    CreateOutcome × CreateOutcome × List Booking :=
  let c1 := availabilityCheck scheds store dayOfWeek b1
  let c2 := availabilityCheck scheds store dayOfWeek b2
  let s1 := if c1 then store ++ [b1] else store
  let s2 := if c2 then s1 ++ [b2] else s1
  ((if c1 then .created b1 else .slotUnavailable),
   (if c2 then .created b2 else .slotUnavailable), s2)

/-! ## Status update, cancel, read (`BookingHandler`) -/

/-- The `validStatuses` set of `UpdateBookingStatus`. -/
def validStatuses : List String := ["pending", "confirmed", "completed", "cancelled"]

/-- Outcome of `UpdateBookingStatus`: 400 `Invalid status`, or 200 with
whatever `GetByID` returns afterwards (`none` renders as JSON `null`). -/
inductive UpdateOutcome where
  | invalidStatus
  | ok (b : Option Booking)
deriving DecidableEq

/-- `BookingHandler.UpdateBookingStatus` after id/body decoding: validate
the requested value against `validStatuses`, run the unconditional
`UpdateStatus`, re-read.  The current status of the row is never
consulted. -/
def updateBookingStatus (store : List Booking) (i : Nat) (req : String) :
    UpdateOutcome × List Booking :=
  if validStatuses.contains req then
    let store' := updateStatusRepo store i req
    (.ok (getByIdRepo store' i), store')
  else (.invalidStatus, store)

/-- Outcome of `GetBooking`: 404, 403 `Access denied`, or 200. -/
inductive GetOutcome where
  | notFound
  | accessDenied
  | ok (b : Booking)
deriving DecidableEq

/-- `BookingHandler.GetBooking` after id decoding, for caller `userId` with
`role`. -/
def getBooking (store : List Booking) (i userId : Nat) (role : String) : GetOutcome :=
  match getByIdRepo store i with
  | none => .notFound
  | some b =>
    if role != "admin" && b.userId != userId then .accessDenied else .ok b

/-- Outcome of `CancelBooking`: 404, 403 `Access denied`, 400 `Booking
cannot be cancelled`, or 200 with the re-read row. -/
inductive CancelOutcome where
  | notFound
  | accessDenied
  | notCancellable
  | ok (b : Option Booking)
deriving DecidableEq

/-- `BookingHandler.CancelBooking` after id decoding. -/
def cancelBooking (store : List Booking) (i userId : Nat) (role : String) :
    CancelOutcome × List Booking :=
  match getByIdRepo store i with
  | none => (.notFound, store)
  | some b =>
    if role != "admin" && b.userId != userId then (.accessDenied, store)
    else if !(isCancellable b) then (.notCancellable, store)
    else
      let store' := updateStatusRepo store i "cancelled"
      (.ok (getByIdRepo store' i), store')

/-- `BookingHandler.ListBookings` after query decoding: a non-admin caller
gets the repository query pinned to their own `user_id`. -/
def listBookings (store : List Booking) (userId : Nat) (role status : String)
    (startDate endDate : Option String) (limit offset : Nat) : List Booking :=
  let userIDPtr : Option Nat := if role != "admin" then some userId else none
  listRepo store userIDPtr status startDate endDate limit offset

/-! ## Concrete fixtures

`2025-01-06` is a Monday, so its Go weekday is 1. -/

/-- An active Monday window 09:00–18:00 for stylist 1. -/
def fxWindow : StylistSchedule := ⟨1, 1, 1, "09:00", "18:00", true⟩

/-- An active Monday window 09:00–17:00 for stylist 1. -/
def fxWindow17 : StylistSchedule := ⟨2, 1, 1, "09:00", "17:00", true⟩

/-- A three-row service catalog. -/
def fxCatalog : List Service :=
  [⟨1, "Cut", 100, 30, true⟩, ⟨2, "Perm", 200, 45, true⟩, ⟨3, "Color", 500, 60, true⟩]

def fxStylists : List Stylist := [⟨1, true⟩]

def fxUser : User := ⟨2, "Amy", some "0912345678", "amy@example.com"⟩

/-- A completed 10:00–11:00 booking of stylist 1 on the Monday. -/
def fxCompleted : Booking :=
  { id := 1, userId := 2, stylistId := 1, services := [⟨3, "Color", 500, 60⟩],
    bookingDate := "2025-01-06", startTime := "10:00", endTime := "11:00",
    duration := 60, price := 500, status := "completed", notes := "",
    customerName := "Amy", customerPhone := "0912345678",
    customerEmail := "amy@example.com", bookingTime := "", serviceDuration := 0 }

/-- The same reservation with status `confirmed`. -/
def fxConfirmed1011 : Booking := { fxCompleted with status := "confirmed" }

/-- A 10:00 one-service (30 min) booking request for stylist 1. -/
def fxRaceReq : CreateReq := ⟨[1], 1, "2025-01-06", "10:00", "", "", "", ""⟩

/-- The row `CreateBooking` inserts for `fxRaceReq` under id 10. -/
def fxRaceB1 : Booking :=
  { id := 10, userId := 2, stylistId := 1, services := [⟨1, "Cut", 100, 30⟩],
    bookingDate := "2025-01-06", startTime := "10:00", endTime := "10:30",
    duration := 30, price := 100, status := "pending", notes := "",
    customerName := "Amy", customerPhone := "0912345678",
    customerEmail := "amy@example.com", bookingTime := "", serviceDuration := 0 }

/-- The same row inserted by the racing request under id 11. -/
def fxRaceB2 : Booking := { fxRaceB1 with id := 11 }

/-- A request starting at 23:30 for a 60-minute service. -/
def fxLateReq : CreateReq := ⟨[3], 1, "2025-01-06", "23:30", "", "", "", ""⟩

/-- The row `CreateBooking` inserts for `fxLateReq`: the derived end time
has wrapped past midnight to `"00:30"`. -/
def fxLateBooking : Booking :=
  { id := 20, userId := 2, stylistId := 1, services := [⟨3, "Color", 500, 60⟩],
    bookingDate := "2025-01-06", startTime := "23:30", endTime := "00:30",
    duration := 60, price := 500, status := "pending", notes := "",
    customerName := "Amy", customerPhone := "0912345678",
    customerEmail := "amy@example.com", bookingTime := "", serviceDuration := 0 }

/-- A request whose start time `"9:30"` is four bytes long. -/
def fxShortReq : CreateReq := ⟨[1], 1, "2025-01-06", "9:30", "", "", "", ""⟩

/-- A request whose start time `"aa:bb"` is five bytes of garbage. -/
def fxGarbageReq : CreateReq := ⟨[1], 1, "2025-01-06", "aa:bb", "", "", "", ""⟩

/-- The row `CreateBooking` inserts for `fxGarbageReq`: both `Atoi` errors
are discarded, so the booking is priced from 00:00 and persisted with its
garbage start time. -/
def fxGarbageBooking : Booking :=
  { id := 30, userId := 2, stylistId := 1, services := [⟨1, "Cut", 100, 30⟩],
    bookingDate := "2025-01-06", startTime := "aa:bb", endTime := "00:30",
    duration := 30, price := 100, status := "pending", notes := "",
    customerName := "Amy", customerPhone := "0912345678",
    customerEmail := "amy@example.com", bookingTime := "", serviceDuration := 0 }

/-- The slot array computed for the Monday with the confirmed 10:00–11:00
reservation in store, duration 60. -/
def fxC5Slots : List TimeSlot :=
  (getAvailableSlots [fxWindow17] [fxConfirmed1011] 1 "2025-01-06" 1 60).getD []

/-- The slot array computed for the Monday window 09:00–17:00 with an
empty store, duration 60. -/
def fxC6Slots : List TimeSlot :=
  (getAvailableSlots [fxWindow17] [] 1 "2025-01-06" 1 60).getD []

/-- A two-service booking request (durations 30 and 45) starting 14:00. -/
def fxC7Req : CreateReq := ⟨[1, 2], 1, "2025-01-06", "14:00", "", "", "", ""⟩

/-- The row `CreateBooking` inserts for `fxC7Req` under id 40. -/
def fxC7Booking : Booking :=
  { id := 40, userId := 2, stylistId := 1,
    services := [⟨1, "Cut", 100, 30⟩, ⟨2, "Perm", 200, 45⟩],
    bookingDate := "2025-01-06", startTime := "14:00", endTime := "15:15",
    duration := 75, price := 300, status := "pending", notes := "",
    customerName := "Amy", customerPhone := "0912345678",
    customerEmail := "amy@example.com", bookingTime := "", serviceDuration := 0 }

/-- A one-service booking request (duration 30) starting 23:45. -/
def fxC7LateReq : CreateReq := ⟨[1], 1, "2025-01-06", "23:45", "", "", "", ""⟩

/-- The row `CreateBooking` inserts for `fxC7LateReq` under id 41: the end
time has rolled over to `"00:15"`. -/
def fxC7LateBooking : Booking :=
  { id := 41, userId := 2, stylistId := 1, services := [⟨1, "Cut", 100, 30⟩],
    bookingDate := "2025-01-06", startTime := "23:45", endTime := "00:15",
    duration := 30, price := 100, status := "pending", notes := "",
    customerName := "Amy", customerPhone := "0912345678",
    customerEmail := "amy@example.com", bookingTime := "", serviceDuration := 0 }

/-! ## Supporting lemmas on the time-string primitives -/

/-- Byte bounds of a decimal digit character. -/
theorem isDigitChar_bounds {c : Char} (h : isDigitChar c = true) :
    48 ≤ c.toNat ∧ c.toNat ≤ 57 := by
  simpa [isDigitChar, Bool.and_eq_true, decide_eq_true_eq] using h

/-- Byte value of the rendered digit. -/
theorem digitChar_toNat (n : Nat) : (digitChar n).toNat = 48 + n % 10 := by
  unfold digitChar
  have hlt : n % 10 < 10 := Nat.mod_lt _ (by norm_num)
  set k := n % 10 with hk
  interval_cases k <;> rfl

/-- The characters of a rendered wall-clock string. -/
theorem format1504_data (t : Nat) :
    (format1504 t).data =
      [digitChar (t / 60 % 24 / 10), digitChar (t / 60 % 24), ':',
       digitChar (t % 60 / 10), digitChar (t % 60)] := by
  simp [format1504, pad2, String.data_append]

/-- A rendered wall-clock string is a well-formed `HH:MM` string. -/
theorem isHHMM_format1504 (t : Nat) : isHHMM (format1504 t) = true := by
  unfold isHHMM
  rw [format1504_data]
  simp only [isDigitChar, digitChar_toNat, Bool.and_eq_true, decide_eq_true_eq]
  refine ⟨⟨⟨⟨⟨⟨by omega, by omega⟩, trivial⟩, by omega⟩, by omega⟩, by omega⟩, by omega⟩

/-- Value of a rendered wall-clock string: the total reduced mod one day. -/
theorem hhmmVal_format1504 (t : Nat) : hhmmVal (format1504 t) = t % 1440 := by
  unfold hhmmVal
  rw [format1504_data]
  simp only [digitChar_toNat]
  omega

/-- Shape facts of a well-formed `HH:MM` string: its length is five, its
value is below one day, Go's `time.Parse` accepts it with that value, and
the handler's two `Atoi` slices recombine to that value. -/
theorem isHHMM_spec {s : String} (h : isHHMM s = true) :
    s.length = 5 ∧ hhmmVal s < 1440 ∧ parseHHMM s = some (hhmmVal s) ∧
    goAtoi (strSlice s 0 2) * 60 + goAtoi (strSlice s 3 5) = hhmmVal s := by
  obtain ⟨data⟩ := s
  match data with
  | [] => simp [isHHMM] at h
  | [a] => simp [isHHMM] at h
  | [a, b] => simp [isHHMM] at h
  | [a, b, c] => simp [isHHMM] at h
  | [a, b, c, d] => simp [isHHMM] at h
  | a :: b :: c :: d :: e :: f :: rest => simp [isHHMM] at h
  | [a, b, c, d, e] =>
    simp only [isHHMM, Bool.and_eq_true, decide_eq_true_eq] at h
    obtain ⟨⟨⟨⟨⟨⟨ha, hb⟩, hc⟩, hd⟩, he⟩, hh⟩, hm⟩ := h
    subst hc
    refine ⟨rfl, ?_, ?_, ?_⟩
    · simp only [hhmmVal]
      omega
    · simp only [parseHHMM, hhmmVal, ha, hb, hd, he, and_self, if_true, true_and]
      rw [if_pos ⟨hh, hm⟩]
      congr 1
      omega
    · have hsl1 : strSlice ⟨[a, b, ':', d, e]⟩ 0 2 = ⟨[a, b]⟩ := rfl
      have hsl2 : strSlice ⟨[a, b, ':', d, e]⟩ 3 5 = ⟨[d, e]⟩ := rfl
      rw [hsl1, hsl2]
      simp only [goAtoi, List.all_cons, List.all_nil, ha, hb, hd, he,
        Bool.and_self, Bool.and_true, ne_eq, reduceCtorEq, not_false_iff,
        true_and, if_true, digitsVal, hhmmVal, List.length_nil,
        List.length_cons, pow_zero, pow_one, Nat.mul_one, Nat.zero_add]
      omega

set_option maxHeartbeats 1000000 in
/-- On well-formed `HH:MM` strings, Go's byte-wise string order is the
numeric order of the values. -/
theorem goStrLt_hhmm_iff {x y : String} (hx : isHHMM x = true)
    (hy : isHHMM y = true) :
    (goStrLt x y = true ↔ hhmmVal x < hhmmVal y) := by
  obtain ⟨dx⟩ := x
  obtain ⟨dy⟩ := y
  rcases dx with _ | ⟨a1, dx⟩; · simp [isHHMM] at hx
  rcases dx with _ | ⟨b1, dx⟩; · simp [isHHMM] at hx
  rcases dx with _ | ⟨c1, dx⟩; · simp [isHHMM] at hx
  rcases dx with _ | ⟨d1, dx⟩; · simp [isHHMM] at hx
  rcases dx with _ | ⟨e1, dx⟩; · simp [isHHMM] at hx
  rcases dx with _ | ⟨f1, dx⟩
  rotate_left
  · simp [isHHMM] at hx
  rcases dy with _ | ⟨a2, dy⟩; · simp [isHHMM] at hy
  rcases dy with _ | ⟨b2, dy⟩; · simp [isHHMM] at hy
  rcases dy with _ | ⟨c2, dy⟩; · simp [isHHMM] at hy
  rcases dy with _ | ⟨d2, dy⟩; · simp [isHHMM] at hy
  rcases dy with _ | ⟨e2, dy⟩; · simp [isHHMM] at hy
  rcases dy with _ | ⟨f2, dy⟩
  rotate_left
  · simp [isHHMM] at hy
  simp only [isHHMM, Bool.and_eq_true, decide_eq_true_eq] at hx hy
  obtain ⟨⟨⟨⟨⟨⟨ha1, hb1⟩, hc1⟩, hd1⟩, he1⟩, hh1⟩, hm1⟩ := hx
  obtain ⟨⟨⟨⟨⟨⟨ha2, hb2⟩, hc2⟩, hd2⟩, he2⟩, hh2⟩, hm2⟩ := hy
  subst hc1
  subst hc2
  obtain ⟨ha1', ha1''⟩ := isDigitChar_bounds ha1
  obtain ⟨hb1', hb1''⟩ := isDigitChar_bounds hb1
  obtain ⟨hd1', hd1''⟩ := isDigitChar_bounds hd1
  obtain ⟨he1', he1''⟩ := isDigitChar_bounds he1
  obtain ⟨ha2', ha2''⟩ := isDigitChar_bounds ha2
  obtain ⟨hb2', hb2''⟩ := isDigitChar_bounds hb2
  obtain ⟨hd2', hd2''⟩ := isDigitChar_bounds hd2
  obtain ⟨he2', he2''⟩ := isDigitChar_bounds he2
  simp only [goStrLt, strLtChars, hhmmVal]
  split_ifs <;>
    first
      | exact iff_of_true rfl (by omega)
      | exact iff_of_false (by simp) (by omega)

/-- On well-formed `HH:MM` strings, Go's `<=` is numeric `≤`. -/
theorem goStrLe_hhmm_iff {x y : String} (hx : isHHMM x = true)
    (hy : isHHMM y = true) :
    (goStrLe x y = true ↔ hhmmVal x ≤ hhmmVal y) := by
  have := goStrLt_hhmm_iff hy hx
  simp only [goStrLe, Bool.not_eq_true']
  constructor
  · intro h
    by_contra hlt
    exact absurd (this.mpr (by omega)) (by simp [h])
  · intro h
    cases hgo : goStrLt y x
    · rfl
    · exact absurd (this.mp hgo) (by omega)

/-- A well-formed `HH:MM` string parses to its value under the
error-discarding `time.Parse` wrapper. -/
theorem goParseTimeMin_hhmm {s : String} (h : isHHMM s = true) :
    goParseTimeMin s = hhmmVal s := by
  unfold goParseTimeMin
  rw [(isHHMM_spec h).2.2.1]
  rfl

/-! ## Supporting lemmas on the slot loop -/

/-- Start times produced by the slot loop (under sufficient fuel): exactly
the 30-minute steps from `cur` whose interval of length `d` still fits
before `e`. -/
theorem slotLoopAux_mem_time {bs : List Booking} {e d : Nat} (hd : 0 < d) :
    ∀ (fuel cur : Nat), e ≤ cur + fuel → ∀ t,
      (t ∈ (slotLoopAux bs e d fuel cur).map TimeSlot.time ↔
        ∃ k, t = cur + 30 * k ∧ t + d ≤ e) := by
  intro fuel
  induction fuel with
  | zero =>
    intro cur hcur t
    simp only [slotLoopAux, List.map_nil, List.not_mem_nil, false_iff]
    rintro ⟨k, rfl, hk⟩
    omega
  | succ n ih =>
    intro cur hcur t
    simp only [slotLoopAux]
    by_cases h1 : cur < e
    · simp only [if_pos h1]
      by_cases h2 : e < cur + d
      · simp only [if_pos h2, List.map_nil, List.not_mem_nil, false_iff]
        rintro ⟨k, rfl, hk⟩
        omega
      · simp only [if_neg h2, List.map_cons, List.mem_cons]
        rw [ih (cur + 30) (by omega) t]
        constructor
        · rintro (rfl | ⟨k, rfl, hk⟩)
          · exact ⟨0, by omega, by omega⟩
          · exact ⟨k + 1, by omega, by omega⟩
        · rintro ⟨k, rfl, hk⟩
          cases k with
          | zero => exact Or.inl (by omega)
          | succ m => exact Or.inr ⟨m, by omega, by omega⟩
    · simp only [if_neg h1, List.map_nil, List.not_mem_nil, false_iff]
      rintro ⟨k, rfl, hk⟩
      omega

/-- The slot loop's start times are strictly increasing. -/
theorem slotLoopAux_chain {bs : List Booking} {e d : Nat} (hd : 0 < d) :
    ∀ (fuel cur : Nat), e ≤ cur + fuel →
      ((slotLoopAux bs e d fuel cur).map TimeSlot.time).Chain' (· < ·) := by
  intro fuel
  induction fuel with
  | zero => intro cur _; simp [slotLoopAux]
  | succ n ih =>
    intro cur hcur
    simp only [slotLoopAux]
    by_cases h1 : cur < e
    · simp only [if_pos h1]
      by_cases h2 : e < cur + d
      · simp [h2]
      · simp only [if_neg h2, List.map_cons]
        refine List.Chain'.cons' (ih (cur + 30) (by omega)) ?_
        intro y hy
        have hymem : y ∈ (slotLoopAux bs e d n (cur + 30)).map TimeSlot.time :=
          List.mem_of_mem_head? hy
        obtain ⟨k, rfl, -⟩ :=
          (slotLoopAux_mem_time hd n (cur + 30) (by omega) y).mp hymem
        show cur < cur + 30 + 30 * k
        omega
    · simp [h1]

/-! ## Supporting lemma on `prepareBooking` -/

/-- Inversion of a successful preparation: the assembled row carries the
resolved snapshot, the summed totals, the request's times, status
`pending`, and the end time derived from the two `Atoi` slices of the
start time plus the total duration. -/
theorem prepareBooking_ok {catalog : List Service} {stylists : List Stylist}
    {user : User} {newId : Nat} {req : CreateReq} {b : Booking}
    (h : prepareBooking catalog stylists user newId req = .ok b) :
    b.duration = (b.services.map ServiceItem.duration).sum ∧
    b.price = (b.services.map ServiceItem.price).sum ∧
    b.startTime = req.startTime ∧ b.bookingDate = req.date ∧
    b.stylistId = req.stylistId ∧ b.status = "pending" ∧
    ¬ (req.startTime.length < 5) ∧
    b.endTime = format1504 (goAtoi (strSlice req.startTime 0 2) * 60 +
      goAtoi (strSlice req.startTime 3 5) + b.duration) := by
  unfold prepareBooking at h
  split at h
  · exact absurd h (by simp)
  · split at h
    · exact absurd h (by simp)
    · split at h
      · split at h
        · exact absurd h (by simp)
        · injection h with h
          subst h
          exact ⟨rfl, rfl, rfl, rfl, rfl, rfl, by assumption, rfl⟩
      · exact absurd h (by simp)

/-! ## Claim theorems -/

/-- C1: the conflict check and the insert of `CreateBooking` are two
separate store accesses with no transaction, lock or constraint joining
them.  In the statement-interleaving where both availability SELECTs run
before either INSERT, two requests for the identical 10:00–10:30 slot of
the same stylist and date both pass preparation, both pass the
availability check, and both rows are inserted — the final store holds two
pending bookings that are conflict rows of each other.  Run sequentially
instead, the second request is refused with `SlotUnavailable`, showing the
lost guarantee is exactly the atomicity the claim asserts. -/
theorem C1_race_both_requests_succeed :
    prepareBooking fxCatalog fxStylists fxUser 10 fxRaceReq = .ok fxRaceB1 ∧
    prepareBooking fxCatalog fxStylists fxUser 11 fxRaceReq = .ok fxRaceB2 ∧
    raceInterleaved [fxWindow] [] 1 fxRaceB1 fxRaceB2 =
      (.created fxRaceB1, .created fxRaceB2, [fxRaceB1, fxRaceB2]) ∧
    isConflictRow fxRaceB2.stylistId fxRaceB2.bookingDate fxRaceB2.startTime
      fxRaceB2.endTime fxRaceB1 = true ∧
    createBooking fxCatalog fxStylists [fxWindow] fxUser [fxRaceB1] 11 fxRaceReq 1 =
      (.slotUnavailable, [fxRaceB1]) := by
  refine ⟨rfl, rfl, by decide, by decide, by decide⟩

/-- C2 counterexample: `UpdateBookingStatus` never reads the stored status.
The transition `completed → pending`, which the claim requires to be
rejected as `InvalidTransition` with the row unchanged, is accepted and
overwrites the row. -/
theorem C2_completed_to_pending_accepted :
    fxCompleted.status = "completed" ∧
    updateBookingStatus [fxCompleted] 1 "pending" =
      (.ok (some { fxCompleted with status := "pending" }),
       [{ fxCompleted with status := "pending" }]) := by
  refine ⟨rfl, by decide⟩

/-- C3 counterexample: a `completed` reservation 10:00–11:00 of the same
stylist and date blocks nothing — `IsAvailable` approves the identical
interval and the slot-calculator fetch returns no rows — although the
claim counts `completed` among the statuses that occupy the stylist's
time. -/
theorem C3_completed_reservation_blocks_nothing :
    fxCompleted.status = "completed" ∧ fxCompleted.stylistId = 1 ∧
    fxCompleted.bookingDate = "2025-01-06" ∧
    fxCompleted.startTime = "10:00" ∧ fxCompleted.endTime = "11:00" ∧
    isAvailable [fxWindow] [fxCompleted] 1 "2025-01-06" 1 "10:00" "11:00" = true ∧
    getByStylistAndDateString [fxCompleted] 1 "2025-01-06" = [] := by
  refine ⟨rfl, rfl, rfl, rfl, rfl, by decide, by decide⟩

/-- C4 counterexample: a request starting 23:30 for 60 minutes against the
window 09:00–18:00 derives the wrapped end time `"00:30"`; the check
`startTime < "09:00" || endTime > "18:00"` passes on both string
comparisons, so the booking — entirely outside the working window and
carrying past midnight — is accepted and persisted, where the claim
requiresrejection with nothing persisted. -/
theorem C4_past_midnight_request_accepted :
    createBooking fxCatalog fxStylists [fxWindow] fxUser [] 20 fxLateReq 1 =
      (.created fxLateBooking, [fxLateBooking]) ∧
    fxLateBooking.startTime = "23:30" ∧ fxLateBooking.duration = 60 ∧
    fxLateBooking.endTime = "00:30" ∧
    goStrLt fxLateBooking.endTime fxLateBooking.startTime = true ∧
    fxWindow.endTime = "18:00" ∧
    goStrLt fxWindow.endTime fxLateBooking.startTime = true := by
  refine ⟨by decide, rfl, rfl, rfl, by decide, rfl, by decide⟩

/-- C5: the slot loop's conflict test parses `booking.BookingTime` and adds
`booking.Service.Duration` — legacy fields that no `model.Booking` under
the sources declares and that `CreateBooking` never populates — instead of
the reservation's stored `[start_time, end_time)`.  With a confirmed
10:00–11:00 reservation in store, the candidates 09:30 (minute 570) and
10:00 (minute 600) are both marked available, where the claim requires
both to be unavailable. -/
theorem C5_slot_marking_ignores_stored_interval :
    fxConfirmed1011.status = "confirmed" ∧
    fxConfirmed1011.startTime = "10:00" ∧ fxConfirmed1011.endTime = "11:00" ∧
    hhmmVal "09:30" = 570 ∧ hhmmVal "10:00" = 600 ∧
    getAvailableSlots [fxWindow17] [fxConfirmed1011] 1 "2025-01-06" 1 60 =
      some fxC5Slots ∧
    TimeSlot.mk 570 true ∈ fxC5Slots ∧ TimeSlot.mk 600 true ∈ fxC5Slots := by
  refine ⟨rfl, rfl, rfl, by decide, by decide, rfl, by decide, by decide⟩

/-- C8: the claim requires a malformed `start_time` to be reported as a
validation error before any write, without panics.  Instead the four-byte
`"9:30"` makes `req.StartTime[3:5]` panic (slice bounds out of range), and
the five-byte garbage `"aa:bb"` is not detected at all: both `Atoi` errors
are discarded, the request is treated as starting at 00:00, and a row with
the garbage start time is persisted. -/
theorem C8_malformed_start_time_not_validated :
    createBooking fxCatalog fxStylists [fxWindow] fxUser [] 30 fxShortReq 1 =
      (.errored .panicked, []) ∧
    createBooking fxCatalog fxStylists [fxWindow] fxUser [] 30 fxGarbageReq 1 =
      (.created fxGarbageBooking, [fxGarbageBooking]) := by
  refine ⟨by decide, by decide⟩

/-- C2 amended: the status-update operation enforces no transition table.
For every store and id, a requested status inside
`{pending, confirmed, completed, cancelled}` is applied unconditionally —
the stored status is overwritten by the request no matter what it was —
and only a string outside that set is rejected (as `Invalid status`, not
`InvalidTransition`), leaving the store unchanged. -/
theorem C2_no_transition_table :
    (∀ (store : List Booking) (i : Nat) (req : String), req ∈ validStatuses →
       updateBookingStatus store i req =
         (.ok (getByIdRepo (updateStatusRepo store i req) i),
          updateStatusRepo store i req)) ∧
    (∀ (store : List Booking) (i : Nat) (req : String), req ∉ validStatuses →
       updateBookingStatus store i req = (.invalidStatus, store)) ∧
    (∀ (store : List Booking) (b : Booking) (req : String),
       b ∈ store → req ∈ validStatuses →
       { b with status := req } ∈ (updateBookingStatus store b.id req).2) := by
  refine ⟨?_, ?_, ?_⟩
  · intro store i req h
    have hc : validStatuses.contains req = true := List.elem_eq_true_of_mem h
    unfold updateBookingStatus
    rw [hc]
    simp
  · intro store i req h
    have hc : validStatuses.contains req = false := by
      cases hcc : validStatuses.contains req
      · rfl
      · exact absurd (List.mem_of_elem_eq_true hcc) h
    unfold updateBookingStatus
    rw [hc]
    simp
  · intro store b req hb h
    have hc : validStatuses.contains req = true := List.elem_eq_true_of_mem h
    unfold updateBookingStatus
    rw [hc]
    simp only [if_pos]
    have : { b with status := req } = (fun x : Booking =>
        if x.id == b.id then { x with status := req } else x) b := by simp
    rw [this]
    exact List.mem_map_of_mem _ hb

/-- Witness for `C2_no_transition_table` at concrete inputs. -/
theorem C2_no_transition_table_witness :
    ({ fxCompleted with status := "confirmed" } ∈
      (updateBookingStatus [fxCompleted] fxCompleted.id "confirmed").2) ∧
    updateBookingStatus [fxCompleted] 1 "rejected" = (.invalidStatus, [fxCompleted]) :=
  ⟨C2_no_transition_table.2.2 [fxCompleted] fxCompleted "confirmed"
      (by decide) (by decide),
   C2_no_transition_table.2.1 [fxCompleted] 1 "rejected" (by decide)⟩

/-- A conflict row of `IsAvailable` is pending or confirmed. -/
theorem isConflictRow_status {sid : Nat} {d st en : String} {b : Booking}
    (h : isConflictRow sid d st en b = true) :
    b.status = "pending" ∨ b.status = "confirmed" := by
  simp only [isConflictRow, Bool.and_eq_true, Bool.or_eq_true, beq_iff_eq] at h
  tauto

/-- C3 amended: the set of reservations treated as occupying a stylist's
time — by the conflict count of `IsAvailable` and by the slot calculator's
fetch alike — is exactly the reservations with status `pending` or
`confirmed`: such a row overlapping the interval always blocks, and both
`completed` and `cancelled` rows never block (filtering them out of the
store never changes `IsAvailable`). -/
theorem C3_occupying_set_is_pending_confirmed :
    (∀ (sid : Nat) (d st en : String) (b : Booking),
       isConflictRow sid d st en b = true →
       b.status = "pending" ∨ b.status = "confirmed") ∧
    (∀ (sid : Nat) (d st en : String) (b : Booking),
       b.stylistId = sid → b.bookingDate = d →
       (b.status = "pending" ∨ b.status = "confirmed") →
       goStrLe b.endTime st = false → goStrLe en b.startTime = false →
       isConflictRow sid d st en b = true) ∧
    (∀ (store : List Booking) (sid : Nat) (d : String) (b : Booking),
       b ∈ getByStylistAndDateString store sid d ↔
         b ∈ store ∧ b.stylistId = sid ∧ b.bookingDate = d ∧
           (b.status = "pending" ∨ b.status = "confirmed")) ∧
    (∀ (scheds : List StylistSchedule) (store : List Booking) (sid : Nat)
       (d : String) (day : Nat) (st en : String),
       isAvailable scheds
         (store.filter (fun b => b.status == "pending" || b.status == "confirmed"))
         sid d day st en =
       isAvailable scheds store sid d day st en) := by
  refine ⟨?_, ?_, ?_, ?_⟩
  · intro sid d st en b h
    exact isConflictRow_status h
  · intro sid d st en b h1 h2 h3 h4 h5
    simp only [isConflictRow, Bool.and_eq_true, Bool.or_eq_true, beq_iff_eq,
      Bool.not_eq_true', Bool.or_eq_false_iff]
    exact ⟨⟨⟨h1, h2⟩, h3⟩, h4, h5⟩
  · intro store sid d b
    simp [getByStylistAndDateString, List.mem_filter, Bool.and_eq_true,
      Bool.or_eq_true, beq_iff_eq, and_assoc]
  · intro scheds store sid d day st en
    have hcount :
        (store.filter (fun b => b.status == "pending" || b.status == "confirmed")).countP
          (fun b => isConflictRow sid d st en b) =
        store.countP (fun b => isConflictRow sid d st en b) := by
      rw [List.countP_filter]
      refine List.countP_congr ?_
      intro b _
      by_cases h : isConflictRow sid d st en b = true
      · rcases isConflictRow_status h with hs | hs <;> simp [h, hs]
      · simp [Bool.eq_false_iff.mpr h]
    unfold isAvailable
    cases schedFindForDay scheds sid day with
    | none => rfl
    | some sc => simp [hcount]

/-- Witness for `C3_occupying_set_is_pending_confirmed`. -/
theorem C3_occupying_set_witness :
    (fxConfirmed1011 ∈ getByStylistAndDateString [fxConfirmed1011] 1 "2025-01-06") ∧
    isAvailable [fxWindow]
      ([fxCompleted].filter (fun b => b.status == "pending" || b.status == "confirmed"))
      1 "2025-01-06" 1 "10:00" "11:00" =
      isAvailable [fxWindow] [fxCompleted] 1 "2025-01-06" 1 "10:00" "11:00" :=
  ⟨(C3_occupying_set_is_pending_confirmed.2.2.1 [fxConfirmed1011] 1 "2025-01-06"
      fxConfirmed1011).mpr ⟨by decide, rfl, rfl, Or.inr rfl⟩,
   C3_occupying_set_is_pending_confirmed.2.2.2 [fxWindow] [fxCompleted] 1
     "2025-01-06" 1 "10:00" "11:00"⟩

/-- C10: updating the status of an id no row carries is not an error: the
unconditional `UPDATE` matches zero rows, the handler proceeds, the
follow-up `GetByID` finds nothing (rendered as a 200 with `null`), and the
store is untouched.  Existence is never checked. -/
theorem C10_absent_id_update_reports_success :
    ∀ (store : List Booking) (i : Nat) (req : String),
      (∀ b ∈ store, b.id ≠ i) → req ∈ validStatuses →
      updateBookingStatus store i req = (.ok none, store) := by
  intro store i req habs hreq
  have hc : validStatuses.contains req = true := List.elem_eq_true_of_mem hreq
  have hmap : updateStatusRepo store i req = store := by
    unfold updateStatusRepo
    have : ∀ b ∈ store,
        (if b.id == i then { b with status := req } else b) = id b := by
      intro b hb
      simp [habs b hb]
    rw [List.map_congr_left this, List.map_id]
  have hfind : getByIdRepo store i = none := by
    unfold getByIdRepo
    rw [List.find?_eq_none]
    intro b hb
    simp [habs b hb]
  unfold updateBookingStatus
  rw [hc]
  simp [hmap, hfind]

/-- Witness for `C10_absent_id_update_reports_success`. -/
theorem C10_absent_id_update_witness :
    updateBookingStatus [fxCompleted] 99 "confirmed" = (.ok none, [fxCompleted]) :=
  C10_absent_id_update_reports_success [fxCompleted] 99 "confirmed"
    (by decide) (by decide)

/-- C9: reservation reads and mutations are role-gated exactly as claimed:
a non-admin's booking list query is pinned to their own `user_id`, so every
row it returns is theirs; getting or cancelling another user's reservation
as a non-admin answers `Access denied` (403) with the store untouched; an
admin passes the ownership check on any reservation. -/
theorem C9_role_based_visibility :
    (∀ (store : List Booking) (userId : Nat) (role status : String)
       (sd ed : Option String) (lim off : Nat) (b : Booking), role ≠ "admin" →
       b ∈ listBookings store userId role status sd ed lim off →
       b.userId = userId) ∧
    (∀ (store : List Booking) (i userId : Nat) (role : String) (b : Booking),
       role ≠ "admin" → getByIdRepo store i = some b → b.userId ≠ userId →
       getBooking store i userId role = .accessDenied) ∧
    (∀ (store : List Booking) (i userId : Nat) (role : String) (b : Booking),
       role ≠ "admin" → getByIdRepo store i = some b → b.userId ≠ userId →
       cancelBooking store i userId role = (.accessDenied, store)) ∧
    (∀ (store : List Booking) (i userId : Nat) (b : Booking),
       getByIdRepo store i = some b →
       getBooking store i userId "admin" = .ok b) := by
  refine ⟨?_, ?_, ?_, ?_⟩
  · intro store userId role status sd ed lim off b hrole hb
    simp only [listBookings, listRepo] at hb
    have hb' := List.mem_filter.mp (List.mem_of_mem_drop (List.mem_of_mem_take hb))
    have hp := hb'.2
    have : (if role != "admin" then some userId else none) = some userId := by
      simp [hrole]
    rw [this] at hp
    simp only [listRepoFilter, Bool.and_eq_true, beq_iff_eq] at hp
    exact hp.1.1.1
  · intro store i userId role b hrole hfind howner
    simp [getBooking, hfind, hrole, howner]
  · intro store i userId role b hrole hfind howner
    simp [cancelBooking, hfind, hrole, howner]
  · intro store i userId b hfind
    simp [getBooking, hfind]

/-- Witness for `C9_role_based_visibility`. -/
theorem C9_role_based_visibility_witness :
    getBooking [fxCompleted] 1 55 "customer" = .accessDenied ∧
    cancelBooking [fxCompleted] 1 55 "customer" = (.accessDenied, [fxCompleted]) ∧
    getBooking [fxCompleted] 1 55 "admin" = .ok fxCompleted :=
  ⟨C9_role_based_visibility.2.1 [fxCompleted] 1 55 "customer" fxCompleted
      (by decide) rfl (by decide),
   C9_role_based_visibility.2.2.1 [fxCompleted] 1 55 "customer" fxCompleted
      (by decide) rfl (by decide),
   C9_role_based_visibility.2.2.2 [fxCompleted] 1 55 fxCompleted rfl⟩

/-- C6: with an active window for the weekday (the first active match, as
the handler scans) and a positive requested duration, the slot array's
start times are exactly the 30-minute candidates
`windowStart, windowStart+30, …` whose interval of the requested duration
still fits before the window end (`t + d ≤ windowEnd`, trailing partial
slots dropped), in strictly increasing order; a stylist with no active
window for that weekday yields `some []` — an empty array, not an
error. -/
theorem C6_candidate_generation :
    (∀ (scheds : List StylistSchedule) (store : List Booking) (sid : Nat)
       (dateStr : String) (day : Nat) (dur : Int) (sc : StylistSchedule)
       (slots : List TimeSlot),
       0 < dur →
       schedFindForDay scheds sid day = some sc →
       getAvailableSlots scheds store sid dateStr day dur = some slots →
       ((∀ t, t ∈ slots.map TimeSlot.time ↔
           ∃ k, t = goParseTimeMin sc.startTime + 30 * k ∧
             t + dur.toNat ≤ goParseTimeMin sc.endTime) ∧
        (slots.map TimeSlot.time).Chain' (· < ·))) ∧
    (∀ (scheds : List StylistSchedule) (store : List Booking) (sid : Nat)
       (dateStr : String) (day : Nat) (dur : Int),
       0 < dur →
       schedFindForDay scheds sid day = none →
       getAvailableSlots scheds store sid dateStr day dur = some []) := by
  constructor
  · intro scheds store sid dateStr day dur sc slots hdur hfind hslots
    have hd : 0 < dur.toNat := by omega
    unfold getAvailableSlots at hslots
    rw [if_neg (by omega : ¬ dur ≤ 0), hfind] at hslots
    have hslots' : slots =
        slotLoop (goParseTimeMin sc.startTime) (goParseTimeMin sc.endTime)
          dur.toNat (getByStylistAndDateString store sid dateStr) := by
      injection hslots with h
      exact h.symm
    subst hslots'
    unfold slotLoop
    exact ⟨slotLoopAux_mem_time hd _ _ (by omega),
      slotLoopAux_chain hd _ _ (by omega)⟩
  · intro scheds store sid dateStr day dur hdur hfind
    unfold getAvailableSlots
    rw [if_neg (by omega : ¬ dur ≤ 0), hfind]

/-- Witness for `C6_candidate_generation`: the Monday window 09:00–17:00
(540–1020 minutes) with duration 60 admits candidate 960 (16:00), and the
Sunday of the same week, having no window, yields the empty array. -/
theorem C6_candidate_generation_witness :
    (960 ∈ fxC6Slots.map TimeSlot.time) ∧
    getAvailableSlots [fxWindow17] [] 1 "2025-01-05" 0 60 = some [] :=
  ⟨((C6_candidate_generation.1 [fxWindow17] [] 1 "2025-01-06" 1 60 fxWindow17
      fxC6Slots (by decide) rfl rfl).1 960).mpr ⟨14, by decide, by decide⟩,
   C6_candidate_generation.2 [fxWindow17] [] 1 "2025-01-05" 0 60 (by decide) rfl⟩

/-- C7: every reservation a successful `CreateBooking` persists has total
duration the sum of its service-selection durations, total price the sum
of their prices, and an end time equal to the rendered value of start time
plus total duration in minute arithmetic with hour rollover (reduced mod
one day); the store grows by exactly that row. -/
theorem C7_totals_and_derived_end_time :
    ∀ (catalog : List Service) (stylists : List Stylist)
      (scheds : List StylistSchedule) (user : User) (store : List Booking)
      (newId : Nat) (req : CreateReq) (day : Nat) (b : Booking)
      (store' : List Booking),
      createBooking catalog stylists scheds user store newId req day =
        (.created b, store') →
      isHHMM req.startTime = true →
      (b.duration = (b.services.map ServiceItem.duration).sum ∧
       b.price = (b.services.map ServiceItem.price).sum ∧
       b.endTime = format1504 (hhmmVal req.startTime + b.duration) ∧
       hhmmVal b.endTime = (hhmmVal req.startTime + b.duration) % 1440 ∧
       store' = store ++ [b]) := by
  intro catalog stylists scheds user store newId req day b store' h hst
  unfold createBooking at h
  split at h
  · simp at h
  case h_2 bp hprep =>
    split at h
    · rw [Prod.mk.injEq] at h
      obtain ⟨h1, h2⟩ := h
      injection h1 with h1
      subst h1
      subst h2
      obtain ⟨hd, hp, hstart, -, -, -, -, hend⟩ := prepareBooking_ok hprep
      refine ⟨hd, hp, ?_, ?_, rfl⟩
      · rw [hend, (isHHMM_spec hst).2.2.2]
      · rw [hend, (isHHMM_spec hst).2.2.2, hhmmVal_format1504]
    · simp at h

/-- Witness for `C7_totals_and_derived_end_time`: the 14:00 booking of a
30- and a 45-minute service totals 75 minutes and 300, ending 15:15; the
23:45 booking of a 30-minute service rolls over to 00:15. -/
theorem C7_totals_witness :
    (fxC7Booking.duration = (fxC7Booking.services.map ServiceItem.duration).sum ∧
     fxC7Booking.price = (fxC7Booking.services.map ServiceItem.price).sum ∧
     fxC7Booking.endTime = format1504 (hhmmVal "14:00" + fxC7Booking.duration) ∧
     hhmmVal fxC7Booking.endTime = (hhmmVal "14:00" + fxC7Booking.duration) % 1440 ∧
     [fxC7Booking] = [] ++ [fxC7Booking]) ∧
    (fxC7LateBooking.duration =
       (fxC7LateBooking.services.map ServiceItem.duration).sum ∧
     fxC7LateBooking.price = (fxC7LateBooking.services.map ServiceItem.price).sum ∧
     fxC7LateBooking.endTime = format1504 (hhmmVal "23:45" + fxC7LateBooking.duration) ∧
     hhmmVal fxC7LateBooking.endTime =
       (hhmmVal "23:45" + fxC7LateBooking.duration) % 1440 ∧
     [fxC7LateBooking] = [] ++ [fxC7LateBooking]) :=
  ⟨C7_totals_and_derived_end_time fxCatalog fxStylists [fxWindow] fxUser [] 40
     fxC7Req 1 fxC7Booking [fxC7Booking] (by decide) (by decide),
   C7_totals_and_derived_end_time fxCatalog fxStylists [fxWindow] fxUser [] 41
     fxC7LateReq 1 fxC7LateBooking [fxC7LateBooking] (by decide) (by decide)⟩

/-- C4 amended: once preparation succeeds, `CreateBooking` answers
`SlotUnavailable` exactly when `IsAvailable` answers false; and on
well-formed `HH:MM` windows and stored times, `IsAvailable` applied to the
derived end `format1504 (start + duration)` answers false exactly when
there is no active window for the weekday, or `start < windowStart`, or
`(start + duration) mod 1440 > windowEnd`, or some pending/confirmed row
of the stylist and date has `start < itsEnd` and
`itsStart < (start + duration) mod 1440`.  The derived end is reduced mod
one day before the comparison, so an interval carrying past midnight wraps
instead of being rejected. -/
theorem C4_reject_conditions :
    (∀ (catalog : List Service) (stylists : List Stylist)
       (scheds : List StylistSchedule) (user : User) (store : List Booking)
       (newId : Nat) (req : CreateReq) (day : Nat) (b : Booking),
       prepareBooking catalog stylists user newId req = .ok b →
       (((createBooking catalog stylists scheds user store newId req day).1 =
           .slotUnavailable) ↔ availabilityCheck scheds store day b = false)) ∧
    (∀ (scheds : List StylistSchedule) (store : List Booking) (sid day : Nat)
       (dateStr st : String) (dur : Nat),
       isHHMM st = true →
       (∀ sc ∈ scheds, isHHMM sc.startTime = true ∧ isHHMM sc.endTime = true) →
       (∀ x ∈ store, isHHMM x.startTime = true ∧ isHHMM x.endTime = true) →
       (isAvailable scheds store sid dateStr day st
           (format1504 (hhmmVal st + dur)) = false ↔
         (match schedFindForDay scheds sid day with
          | none => True
          | some sc =>
              hhmmVal st < hhmmVal sc.startTime ∨
              hhmmVal sc.endTime < (hhmmVal st + dur) % 1440 ∨
              ∃ x ∈ store, x.stylistId = sid ∧ x.bookingDate = dateStr ∧
                (x.status = "pending" ∨ x.status = "confirmed") ∧
                hhmmVal st < hhmmVal x.endTime ∧
                hhmmVal x.startTime < (hhmmVal st + dur) % 1440))) := by
  constructor
  · intro catalog stylists scheds user store newId req day b hprep
    unfold createBooking
    rw [hprep]
    cases hc : availabilityCheck scheds store day b <;> simp [hc]
  · intro scheds store sid day dateStr st dur hst hws hxs
    set en := format1504 (hhmmVal st + dur) with hen
    have henH : isHHMM en = true := isHHMM_format1504 _
    have henV : hhmmVal en = (hhmmVal st + dur) % 1440 := hhmmVal_format1504 _
    unfold isAvailable
    cases hfind : schedFindForDay scheds sid day with
    | none => simp
    | some sc =>
      have hscmem : sc ∈ scheds := by
        unfold schedFindForDay at hfind
        exact List.mem_of_find?_eq_some hfind
      obtain ⟨hscs, hsce⟩ := hws sc hscmem
      simp only []
      by_cases hwin : goStrLt st sc.startTime = true ∨ goStrLt sc.endTime en = true
      · have hcond : (goStrLt st sc.startTime || goStrLt sc.endTime en) = true := by
          rcases hwin with h | h <;> simp [h]
        refine iff_of_true (by simp [hcond]) ?_
        rcases hwin with h | h
        · exact Or.inl ((goStrLt_hhmm_iff hst hscs).mp h)
        · refine Or.inr (Or.inl ?_)
          have := (goStrLt_hhmm_iff hsce henH).mp h
          rwa [henV] at this
      · rw [not_or] at hwin
        obtain ⟨hA, hB⟩ := hwin
        have h1 : goStrLt st sc.startTime = false := by
          cases hb : goStrLt st sc.startTime
          · rfl
          · exact absurd hb hA
        have h2 : goStrLt sc.endTime en = false := by
          cases hb : goStrLt sc.endTime en
          · rfl
          · exact absurd hb hB
        rw [h1, h2]
        simp only [Bool.or_self, Bool.false_eq_true, if_false]
        have hnA : ¬ (hhmmVal st < hhmmVal sc.startTime) := fun hlt =>
          hA ((goStrLt_hhmm_iff hst hscs).mpr hlt)
        have hnB : ¬ (hhmmVal sc.endTime < (hhmmVal st + dur) % 1440) := fun hlt =>
          hB ((goStrLt_hhmm_iff hsce henH).mpr (by rwa [henV]))
        have hxiff : ∀ x ∈ store,
            (isConflictRow sid dateStr st en x = true ↔
              (x.stylistId = sid ∧ x.bookingDate = dateStr ∧
               (x.status = "pending" ∨ x.status = "confirmed") ∧
               hhmmVal st < hhmmVal x.endTime ∧
               hhmmVal x.startTime < (hhmmVal st + dur) % 1440)) := by
          intro x hx
          obtain ⟨hxs1, hxs2⟩ := hxs x hx
          simp only [isConflictRow, Bool.and_eq_true, Bool.or_eq_true,
            beq_iff_eq, Bool.not_eq_true', Bool.or_eq_false_iff, and_assoc]
          constructor
          · rintro ⟨hb1, hb2, hb3, hb4, hb5⟩
            refine ⟨hb1, hb2, hb3, ?_, ?_⟩
            · have := (goStrLe_hhmm_iff hxs2 hst).mp
              by_contra hc
              have : goStrLe x.endTime st = true :=
                (goStrLe_hhmm_iff hxs2 hst).mpr (by omega)
              simp [this] at hb4
            · by_contra hc
              have : goStrLe en x.startTime = true :=
                (goStrLe_hhmm_iff henH hxs1).mpr (by omega)
              simp [this] at hb5
          · rintro ⟨hb1, hb2, hb3, hb4, hb5⟩
            refine ⟨hb1, hb2, hb3, ?_, ?_⟩
            · cases hgo : goStrLe x.endTime st
              · rfl
              · have := (goStrLe_hhmm_iff hxs2 hst).mp hgo
                omega
            · cases hgo : goStrLe en x.startTime
              · rfl
              · have := (goStrLe_hhmm_iff henH hxs1).mp hgo
                rw [henV] at this
                omega
        constructor
        · intro hcount
          refine Or.inr (Or.inr ?_)
          have hne : store.countP (fun b => isConflictRow sid dateStr st en b) ≠ 0 := by
            intro h0
            rw [h0] at hcount
            simp at hcount
          have hpos : 0 < store.countP (fun b => isConflictRow sid dateStr st en b) :=
            Nat.pos_of_ne_zero hne
          obtain ⟨x, hx, hp⟩ := List.countP_pos_iff.mp hpos
          exact ⟨x, hx, (hxiff x hx).mp hp⟩
        · intro hrhs
          rcases hrhs with h | h | ⟨x, hx, hxc⟩
          · exact absurd h hnA
          · exact absurd h hnB
          · have hpos : 0 < store.countP (fun b => isConflictRow sid dateStr st en b) :=
              List.countP_pos_iff.mpr ⟨x, hx, (hxiff x hx).mpr hxc⟩
            simp only [beq_eq_false_iff_ne, ne_eq]
            omega

/-- Witness for `C4_reject_conditions` at the 23:30-plus-60-minutes
request: the wrapped end `"00:30"` passes the window check and the
characterization's right-hand side is false, matching `IsAvailable`
answering true. -/
theorem C4_reject_conditions_witness :
    (((createBooking fxCatalog fxStylists [fxWindow] fxUser [] 20 fxLateReq 1).1 =
        .slotUnavailable) ↔
      availabilityCheck [fxWindow] [] 1 fxLateBooking = false) ∧
    (isAvailable [fxWindow] [] 1 "2025-01-06" 1 "23:30"
        (format1504 (hhmmVal "23:30" + 60)) = false ↔
      (match schedFindForDay [fxWindow] 1 1 with
       | none => True
       | some sc =>
           hhmmVal "23:30" < hhmmVal sc.startTime ∨
           hhmmVal sc.endTime < (hhmmVal "23:30" + 60) % 1440 ∨
           ∃ x ∈ ([] : List Booking), x.stylistId = 1 ∧
             x.bookingDate = "2025-01-06" ∧
             (x.status = "pending" ∨ x.status = "confirmed") ∧
             hhmmVal "23:30" < hhmmVal x.endTime ∧
             hhmmVal x.startTime < (hhmmVal "23:30" + 60) % 1440)) :=
  ⟨C4_reject_conditions.1 fxCatalog fxStylists [fxWindow] fxUser [] 20 fxLateReq 1
      fxLateBooking rfl,
   C4_reject_conditions.2 [fxWindow] [] 1 1 "2025-01-06" "23:30" 60 (by decide)
      (by decide) (by simp)⟩

end LindaSalon
